import Mathlib

/-!
Verification development for the `thin_proxy` repository (a small
single-threaded forward HTTP/HTTPS proxy written in Rust on top of `mio`).

The Rust sources (`src/dns.rs`, `src/session.rs`, `src/main.rs`) are shallowly
embedded below.  Pure string manipulation (`str::split`, `str::replace`,
`str::starts_with`, ...) is embedded on `List Char`; stateful code
(session registry, DNS cache, reactor registration) is embedded as explicit
state passing over a `World` record; socket I/O and other OS facilities are
supplied by explicit environment records (read scripts, resolver functions,
splice availability), so every embedded function is executable.
-/

set_option maxHeartbeats 1000000

namespace ThinProxy

/-- Byte strings: Rust `&str` / `Vec<u8>` values are embedded as `List Char`
(one `Char` per byte; all data relevant to the claims is ASCII). -/
abbrev RStr := List Char

/-- IP addresses are opaque identifiers for this development
(`std::net::IpAddr` is only ever produced by the resolver and consumed by
`SocketAddr::new`). -/
abbrev IpAddr := String

/-- Error kinds of `std::io::ErrorKind` that the proxy sources mention,
plus `panicked`, which models a Rust `panic!` escaping from an `unwrap`. -/
inductive IOErrorKind
  | wouldBlock
  | other
  | unexpectedEof
  | networkUnreachable
  | notConnected
  | panicked
  deriving DecidableEq, Repr

/-- An embedded `std::io::Error`: a kind plus its message string. -/
structure IOError where
  kind : IOErrorKind
  msg : String
  deriving DecidableEq, Repr

/-- The error `io::Error::new(ErrorKind::WouldBlock, "")` that the sources
construct at every would-block site. -/
def wbErr : IOError := ⟨.wouldBlock, ""⟩

/- ### Embedded Rust string primitives (on `List Char`) -/

/-- Rust `str::starts_with` on byte strings. -/
def rHasPre : RStr → RStr → Bool
  | [], _ => true
  | _ :: _, [] => false
  | p :: ps, c :: cs => p = c && rHasPre ps cs

/-- Rust `str::ends_with` on byte strings. -/
def rEndsWith (p s : RStr) : Bool := rHasPre p.reverse s.reverse

/-- Scanner for `rReplace`: `fuel` bounds the number of scan steps; every
step consumes at least one input character, so `s.length` fuel is enough. -/
def rReplaceAux (p0 : Char) (prest rep : RStr) : Nat → RStr → RStr
  | 0, s => s
  | fuel + 1, s =>
    match s with
    | [] => []
    | c :: cs =>
      if rHasPre (p0 :: prest) (c :: cs) then
        rep ++ rReplaceAux p0 prest rep fuel ((c :: cs).drop (p0 :: prest).length)
      else
        c :: rReplaceAux p0 prest rep fuel cs

/-- Rust `str::replace (pat, rep)` with a non-empty literal pattern
`p0 :: prest` (Rust's `str::replace` replaces every occurrence of the
*literal* pattern; it performs no regular-expression matching). -/
def rReplace (p0 : Char) (prest rep : RStr) (s : RStr) : RStr :=
  rReplaceAux p0 prest rep s.length s

/-- Rust `str::split(sep)` for a one-character separator: splits into the
(non-empty) list of fragments between occurrences of `sep`. -/
def rSplit (sep : Char) : RStr → List RStr
  | [] => [[]]
  | c :: cs =>
    match rSplit sep cs with
    | [] => [[]]
    | r :: rs => if c = sep then [] :: r :: rs else (c :: r) :: rs

/-- Rust `u16::from_str` over ASCII decimal digits (used by
`host_port.next().unwrap_or("80").parse()`): an optional leading `+`, then
one or more digits, and the value must fit in `u16`. -/
def digitsVal : RStr → Option Nat
  | [] => none
  | [c] => if c.isDigit then some (c.toNat - 48) else none
  | c :: cs =>
    if c.isDigit then
      match digitsVal cs with
      | some v => some ((c.toNat - 48) * 10 ^ cs.length + v)
      | none => none
    else none

/-- Rust `str::parse::<u16>()` as an `Option`. -/
def parsePort (s : RStr) : Option Nat :=
  let s' := match s with
    | '+' :: r => r
    | _ => s
  match digitsVal s' with
  | some v => if v < 65536 then some v else none
  | none => none

/- ### Association lists: `HashMap` embedding -/

/-- Lookup in an association list (embeds `HashMap::get`). -/
def alookup {α β : Type} [DecidableEq α] (k : α) : List (α × β) → Option β
  | [] => none
  | p :: ps => if p.1 = k then some p.2 else alookup k ps

/-- Removal from an association list (embeds `HashMap::remove`; a `HashMap`
has at most one entry per key, so removing every matching pair is faithful). -/
def aremove {α β : Type} [DecidableEq α] (k : α) (l : List (α × β)) : List (α × β) :=
  l.filter (fun p => !(decide (p.1 = k)))

/-- Insertion into an association list (embeds `HashMap::insert`, which
replaces any existing entry for the key). -/
def ainsert {α β : Type} [DecidableEq α] (k : α) (v : β) (l : List (α × β)) : List (α × β) :=
  (k, v) :: aremove k l

theorem alookup_aremove_self {α β : Type} [DecidableEq α] (k : α) (l : List (α × β)) :
    alookup k (aremove k l) = none := by
  induction l with
  | nil => rfl
  | cons p ps ih =>
      by_cases h : p.1 = k <;> simp [aremove, alookup, h] at ih ⊢ <;>
        simpa [aremove] using ih

theorem alookup_aremove_ne {α β : Type} [DecidableEq α] (j k : α) (l : List (α × β))
    (h : j ≠ k) : alookup j (aremove k l) = alookup j l := by
  induction l with
  | nil => rfl
  | cons p ps ih =>
      by_cases hp : p.1 = k
      · simpa [aremove, List.filter_cons, hp, Ne.symm h, alookup] using ih
      · by_cases hj : p.1 = j <;>
          simpa [aremove, List.filter_cons, hp, hj, h, alookup] using ih

theorem alookup_ainsert_self {α β : Type} [DecidableEq α] (k : α) (v : β) (l : List (α × β)) :
    alookup k (ainsert k v l) = some v := by
  simp [ainsert, alookup]

theorem alookup_ainsert_ne {α β : Type} [DecidableEq α] (j k : α) (v : β) (l : List (α × β))
    (h : j ≠ k) : alookup j (ainsert k v l) = alookup j l := by
  have hkj : k ≠ j := fun hh => h hh.symm
  simp only [ainsert, alookup, if_neg hkj]
  exact alookup_aremove_ne j k l h

/- ### `src/dns.rs`: resolver cache -/

/-- Embeds `struct DNS { cache: HashMap<String, Vec<IpAddr>> }`. -/
structure DNS where
  cache : List (RStr × List IpAddr)
  deriving DecidableEq, Repr

/-- Embeds `DNS::new`. -/
def DNS.new : DNS := ⟨[]⟩

/-- Embeds `DNS::query`.  The external resolver (`dns_lookup::lookup_host`)
is passed in as `resolve`; `none` models a lookup error, which the source
maps to an empty vector via `unwrap_or(Vec::new())`.  Besides the source's
return value and the updated cache, the embedding also reports whether the
resolver was actually invoked (true exactly when the cache had no entry, i.e.
when `or_insert_with_key` ran its closure). -/
def DNS.query (resolve : RStr → Option (List IpAddr)) (d : DNS) (host : RStr) :
    Option IpAddr × DNS × Bool :=
  let (cache1, called) :=
    match alookup host d.cache with
    | some _ => (d.cache, false)
    | none => (ainsert host ((resolve host).getD []) d.cache, true)
  match alookup host cache1 with
  | some ips =>
      if ips.isEmpty then (none, ⟨aremove host cache1⟩, called)
      else (ips.head?, ⟨cache1⟩, called)
  | none => (none, ⟨cache1⟩, called)

/- ### `src/session.rs`: `splice_copy`, the zero-copy relay engine -/

/-- The observable state of one relay direction: the bytes currently
available for reading on the source socket (`srcData`, with `srcClosed`
telling whether the peer has shut down after those bytes), the number of
bytes the destination socket can still accept before its send buffer is
full (`dstRoom`), and the bytes delivered to the destination so far
(`dstData`).  The intermediate kernel pipe created by `splice_copy` is
threaded separately because it is created afresh (and dropped) on every
call. -/
structure SpliceState where
  srcData : RStr
  srcClosed : Bool
  dstRoom : Nat
  dstData : RStr
  deriving DecidableEq, Repr

/-- Models one `splice(src, write_pipe, 8192, ..)` kernel call: moves up to
8192 immediately-available bytes from the source socket into the pipe.
`Except.error ()` is `EAGAIN`; `Except.ok 0` is end-of-file. -/
def spliceFromSrc (st : SpliceState) (pipeBuf : RStr) :
    Except Unit Nat × SpliceState × RStr :=
  if st.srcData.isEmpty then
    if st.srcClosed then (.ok 0, st, pipeBuf)
    else (.error (), st, pipeBuf)
  else
    let n := min 8192 st.srcData.length
    (.ok n, { st with srcData := st.srcData.drop n }, pipeBuf ++ st.srcData.take n)

/-- Models one `splice(read_pipe, dst, 8192, ..)` kernel call: moves up to
8192 bytes from the pipe into the destination socket, bounded by the
destination's available room.  `Except.error ()` is `EAGAIN` (pipe empty, or
no room in the destination's send buffer). -/
def spliceToDst (st : SpliceState) (pipeBuf : RStr) :
    Except Unit Nat × SpliceState × RStr :=
  if pipeBuf.isEmpty then (.error (), st, pipeBuf)
  else if st.dstRoom = 0 then (.error (), st, pipeBuf)
  else
    let n := min 8192 (min pipeBuf.length st.dstRoom)
    (.ok n,
     { st with dstRoom := st.dstRoom - n, dstData := st.dstData ++ pipeBuf.take n },
     pipeBuf.drop n)

/-- Embeds the `loop { .. }` body of `splice_copy` (session.rs:320-370).
`fuel` bounds the iteration count; `splice_copy` below always supplies
enough fuel, because every continuing iteration consumes at least one byte
of `srcData`. -/
def splice_copy_loop : Nat → SpliceState → RStr → Nat → Except IOError Nat × SpliceState
  | 0, st, _, _ => (.error ⟨.other, "out of fuel"⟩, st)
  | fuel + 1, st, pipeBuf, send =>
    match spliceFromSrc st pipeBuf with
    | (.ok u, st1, pb1) =>
      if u = 0 then (.error ⟨.unexpectedEof, "eof"⟩, st1)
      else
        let send1 := send + u
        match spliceToDst st1 pb1 with
        | (.ok u2, st2, pb2) =>
          if u2 = 0 then (.error ⟨.unexpectedEof, "eof"⟩, st2)
          else splice_copy_loop fuel st2 pb2 (send1 + u2)
        | (.error _, st2, _) => (.ok send1, st2)
    | (.error _, st1, _) => (.error wbErr, st1)

/-- Embeds `splice_copy` (session.rs:316-373): creates a fresh (empty) pipe,
runs the transfer loop, and returns the accumulated count.  Any bytes left
in the pipe when the function returns are dropped with it (the pipe
descriptors go out of scope). -/
def splice_copy (st : SpliceState) : Except IOError Nat × SpliceState :=
  splice_copy_loop (st.srcData.length + 1) st [] 0

/-- Key behaviour of the relay loop: starting from an empty pipe, with the
source open and the destination able to absorb everything the source has
available, `splice_copy_loop` delivers every available source byte to the
destination in order and then terminates with `Err(WouldBlock)` when the
source-side `splice` hits `EAGAIN` — regardless of how many bytes were
already moved. -/
theorem splice_copy_loop_drain :
    ∀ (fuel : Nat) (st : SpliceState) (send : Nat),
      st.srcData.length < fuel →
      st.srcClosed = false →
      st.srcData.length ≤ st.dstRoom →
      splice_copy_loop fuel st [] send =
        (.error wbErr,
         { srcData := [], srcClosed := false,
           dstRoom := st.dstRoom - st.srcData.length,
           dstData := st.dstData ++ st.srcData }) := by
  intro fuel
  induction fuel with
  | zero =>
      intro st send hfuel _ _
      exact absurd hfuel (Nat.not_lt_zero _)
  | succ fuel ih =>
      rintro ⟨src, closed, room, dst⟩ send hfuel hclosed hroom
      subst hclosed
      cases src with
      | nil =>
          simp [splice_copy_loop, spliceFromSrc, wbErr]
      | cons c cs =>
          have hfuel' : (c :: cs).length < fuel + 1 := hfuel
          have hnlen : (8192 : Nat) ⊓ (c :: cs).length ≤ (c :: cs).length := min_le_right _ _
          have hn8192 : (8192 : Nat) ⊓ (c :: cs).length ≤ 8192 := min_le_left _ _
          have hnpos : 0 < (8192 : Nat) ⊓ (c :: cs).length :=
            lt_min_iff.mpr ⟨by norm_num, by simp⟩
          have hn0 : ¬(8192 : Nat) ⊓ (c :: cs).length = 0 := by omega
          have hroom' : (c :: cs).length ≤ room := by simpa using hroom
          have hroomne : ¬room = 0 := by
            have : 0 < (c :: cs).length := by simp
            omega
          have htake : (List.take ((8192 : Nat) ⊓ (c :: cs).length) (c :: cs)).length =
              (8192 : Nat) ⊓ (c :: cs).length := List.length_take_of_le hnlen
          have htakene : (List.take ((8192 : Nat) ⊓ (c :: cs).length) (c :: cs)).isEmpty = false := by
            rw [List.isEmpty_eq_false]
            intro hnil
            apply hn0
            have := congrArg List.length hnil
            rw [htake] at this
            simpa using this
          have e1 : (8192 : Nat) ⊓ (c :: cs).length ⊓ room = (8192 : Nat) ⊓ (c :: cs).length :=
            min_eq_left (le_trans hnlen hroom')
          have e2 : (8192 : Nat) ⊓ ((8192 : Nat) ⊓ (c :: cs).length) =
              (8192 : Nat) ⊓ (c :: cs).length := min_eq_right hn8192
          have hpb2 : List.drop ((8192 : Nat) ⊓ (c :: cs).length)
              (List.take ((8192 : Nat) ⊓ (c :: cs).length) (c :: cs)) = [] :=
            List.drop_eq_nil_of_le (le_of_eq htake)
          -- one pass of the loop body
          have hstep : splice_copy_loop (fuel + 1) ⟨c :: cs, false, room, dst⟩ [] send =
              splice_copy_loop fuel
                ⟨(c :: cs).drop ((8192 : Nat) ⊓ (c :: cs).length), false,
                  room - (8192 : Nat) ⊓ (c :: cs).length,
                  dst ++ (c :: cs).take ((8192 : Nat) ⊓ (c :: cs).length)⟩ []
                (send + (8192 : Nat) ⊓ (c :: cs).length + (8192 : Nat) ⊓ (c :: cs).length) := by
            simp only [splice_copy_loop, spliceFromSrc, List.isEmpty_cons, Bool.false_eq_true,
              if_false, List.nil_append, hn0, spliceToDst, htakene, hroomne, htake, e1, e2,
              List.take_take, min_self, hpb2, ite_false]
          rw [hstep]
          rw [ih ⟨(c :: cs).drop ((8192 : Nat) ⊓ (c :: cs).length), false,
                room - (8192 : Nat) ⊓ (c :: cs).length,
                dst ++ (c :: cs).take ((8192 : Nat) ⊓ (c :: cs).length)⟩
              (send + (8192 : Nat) ⊓ (c :: cs).length + (8192 : Nat) ⊓ (c :: cs).length)
              (by show ((c :: cs).drop ((8192 : Nat) ⊓ (c :: cs).length)).length < fuel
                  rw [List.length_drop]; omega)
              rfl
              (by show ((c :: cs).drop ((8192 : Nat) ⊓ (c :: cs).length)).length ≤
                    room - (8192 : Nat) ⊓ (c :: cs).length
                  rw [List.length_drop]; omega)]
          have harith : room - (8192 : Nat) ⊓ (c :: cs).length -
              ((c :: cs).length - (8192 : Nat) ⊓ (c :: cs).length) = room - (c :: cs).length := by
            omega
          simp only [List.length_drop, List.append_assoc, List.take_append_drop, harith]

/-- State of one relay direction with five bytes available on the (open)
source socket and ample room on the destination. -/
def c1State : SpliceState := ⟨"hello".toList, false, 8192, []⟩

/-- C1 counterexample: `splice_copy` moves the five available bytes
"hello" to the destination and then, when the *source*-side `splice`
reports would-block, it returns `Err(WouldBlock)` — not success with the
count of bytes moved, contradicting the claim that a transfer that moved
K>0 bytes and then hits would-block on the source reports K bytes moved as
success. -/
theorem splice_copy_wouldblock_counterexample :
    (splice_copy c1State).1 = .error wbErr ∧
    (splice_copy c1State).2.dstData = "hello".toList := by
  exact ⟨rfl, rfl⟩

/-- C1 amended: when a transfer finds K ≥ 0 bytes on the source and the
destination can absorb them, `splice_copy` delivers exactly those bytes, in
order, to the destination and returns `Err(WouldBlock)` once the source-side
`splice` hits would-block — even when K > 0 (success with a byte count is
returned only on a *destination*-side would-block).  The driver treats
`WouldBlock` as non-fatal, and a subsequent call on the same pair picks up
exactly the newly arrived bytes: nothing is duplicated or dropped. -/
theorem splice_copy_amended (bs cs : RStr) (room : Nat)
    (hroom : bs.length + cs.length ≤ room) :
    splice_copy ⟨bs, false, room, []⟩ =
      (.error wbErr, ⟨[], false, room - bs.length, bs⟩) ∧
    splice_copy ⟨cs, false, room - bs.length, bs⟩ =
      (.error wbErr, ⟨[], false, room - (bs.length + cs.length), bs ++ cs⟩) := by
  constructor
  · have h := splice_copy_loop_drain (bs.length + 1) ⟨bs, false, room, []⟩ 0
      (by show bs.length < bs.length + 1; omega) rfl (by show bs.length ≤ room; omega)
    simpa [splice_copy] using h
  · have h := splice_copy_loop_drain (cs.length + 1) ⟨cs, false, room - bs.length, bs⟩ 0
      (by show cs.length < cs.length + 1; omega) rfl
      (by show cs.length ≤ room - bs.length; omega)
    rw [show splice_copy ⟨cs, false, room - bs.length, bs⟩ =
        splice_copy_loop (cs.length + 1) ⟨cs, false, room - bs.length, bs⟩ [] 0 from rfl, h,
      show (⟨cs, false, room - bs.length, bs⟩ : SpliceState).dstRoom = room - bs.length from rfl,
      Nat.sub_sub]

/-- Witness for `splice_copy_amended` at a concrete input. -/
theorem splice_copy_amended_witness :
    splice_copy ⟨"ab".toList, false, 100, []⟩ =
      (.error wbErr, ⟨[], false, 100 - ("ab".toList : RStr).length, "ab".toList⟩) ∧
    splice_copy ⟨"cd".toList, false, 100 - ("ab".toList : RStr).length, "ab".toList⟩ =
      (.error wbErr,
       ⟨[], false, 100 - (("ab".toList : RStr).length + ("cd".toList : RStr).length),
        "ab".toList ++ "cd".toList⟩) :=
  splice_copy_amended "ab".toList "cd".toList 100 (by decide)

/-- C5: `DNS::query` cache contract.  (1) On a cache hit with a non-empty
address list, the first address is returned, the resolver is not invoked and
the cache is unchanged.  (2) On a cache miss where resolution fails or
yields zero addresses, `None` is returned, the entry is evicted (no empty
list stays cached) and the resolver was invoked; a subsequent query with a
succeeding resolver re-resolves and returns the first address. -/
theorem dns_query_spec
    (d : DNS) (h : RStr) (resolve resolve' : RStr → Option (List IpAddr))
    (ip : IpAddr) (ips : List IpAddr) :
    (alookup h d.cache = some (ip :: ips) →
      DNS.query resolve d h = (some ip, d, false)) ∧
    (alookup h d.cache = none → (resolve h).getD [] = [] →
      (DNS.query resolve d h).1 = none ∧
      alookup h (DNS.query resolve d h).2.1.cache = none ∧
      (DNS.query resolve d h).2.2 = true ∧
      (resolve' h = some (ip :: ips) →
        (DNS.query resolve' (DNS.query resolve d h).2.1 h).1 = some ip ∧
        (DNS.query resolve' (DNS.query resolve d h).2.1 h).2.2 = true)) := by
  constructor
  · intro hhit
    simp [DNS.query, hhit]
  · intro hmiss hempty
    have h1 : DNS.query resolve d h =
        (none, ⟨aremove h (ainsert h [] d.cache)⟩, true) := by
      simp [DNS.query, hmiss, hempty, alookup_ainsert_self]
    rw [h1]
    refine ⟨rfl, alookup_aremove_self h _, rfl, ?_⟩
    intro hres
    have h2 : alookup h (aremove h (ainsert h ([] : List IpAddr) d.cache)) = none :=
      alookup_aremove_self h _
    simp [DNS.query, h2, hres, alookup_ainsert_self]

/-- Hostname used in the DNS witness. -/
def exHost : RStr := "example.com".toList

/-- A resolver that fails every lookup. -/
def failRes : RStr → Option (List IpAddr) := fun _ => none

/-- A resolver that answers every lookup with one address. -/
def okRes : RStr → Option (List IpAddr) := fun _ => some ["93.184.216.34"]

/-- Witness for `dns_query_spec`: a failing resolution leaves no cached
entry and returns `None`; re-querying with a succeeding resolver returns
the address; querying a third time — even with a failing resolver — hits
the cache and still returns the address without re-resolving. -/
theorem dns_query_spec_witness :
    (DNS.query failRes DNS.new exHost).1 = none ∧
    alookup exHost (DNS.query failRes DNS.new exHost).2.1.cache = none ∧
    (DNS.query failRes DNS.new exHost).2.2 = true ∧
    (DNS.query okRes (DNS.query failRes DNS.new exHost).2.1 exHost).1 =
      some "93.184.216.34" ∧
    DNS.query failRes (DNS.query okRes (DNS.query failRes DNS.new exHost).2.1 exHost).2.1
        exHost =
      (some "93.184.216.34",
       (DNS.query okRes (DNS.query failRes DNS.new exHost).2.1 exHost).2.1, false) := by
  have h2 := (dns_query_spec DNS.new exHost failRes okRes "93.184.216.34" []).2 rfl rfl
  have h1 := (dns_query_spec
      (DNS.query okRes (DNS.query failRes DNS.new exHost).2.1 exHost).2.1
      exHost failRes okRes "93.184.216.34" []).1 (by decide)
  exact ⟨h2.1, h2.2.1, h2.2.2.1, (h2.2.2.2 rfl).1, h1⟩

/- ### Header parsing: model of the external `httparse` crate -/

/-- A parsed header (models `httparse::Header`): a field name and value. -/
structure Header where
  name : RStr
  value : RStr
  deriving DecidableEq, Repr

/-- Result of `httparse::parse_headers`: a complete header block or a
partial one awaiting more bytes. -/
inductive ParseStatus
  | complete (headers : List Header)
  | incomplete
  deriving DecidableEq, Repr

/-- HTTP token characters, the characters `httparse` accepts in a header
field name (RFC 7230 `tchar`). -/
def isTokenChar (c : Char) : Bool :=
  c.isAlphanum || c = '!' || c = '#' || c = '$' || c = '%' || c = '&' ||
  c = Char.ofNat 39 || c = '*' || c = '+' || c = '-' || c = '.' || c = '^' ||
  c = '_' || c = Char.ofNat 96 || c = '|' || c = '~'

/-- Space or horizontal tab (skipped by `httparse` after the colon). -/
def isSpaceTab (c : Char) : Bool := c == ' ' || c == '\t'

/-- A character allowed inside a header value (anything before CR/LF). -/
def isValueChar (c : Char) : Bool := !(c == '\r') && !(c == '\n')

/-- Modelled from the external `httparse` crate (`parse_headers`, as invoked
by `Session::parse_header_line` with a 10-slot header array): repeatedly
parse `token-name ":" OWS value CRLF` lines (a bare LF is also accepted as a
line terminator) until an empty line ends the block; report `incomplete`
when the input ends mid-block, and an error for a malformed line or for an
eleventh header.  `fuel` bounds recursion; `parse_headers` supplies enough
since every parsed header consumes at least two characters. -/
def parseHeadersAux : Nat → RStr → List Header → Except Unit ParseStatus
  | 0, _, _ => .error ()
  | fuel + 1, bs, acc =>
    match bs with
    | [] => .ok .incomplete
    | '\r' :: rest =>
        match rest with
        | '\n' :: _ => .ok (.complete acc.reverse)
        | [] => .ok .incomplete
        | _ => .error ()
    | '\n' :: _ => .ok (.complete acc.reverse)
    | _ =>
        if acc.length = 10 then .error ()
        else
          let name := bs.takeWhile isTokenChar
          let rest1 := bs.dropWhile isTokenChar
          if name.isEmpty then .error ()
          else
            match rest1 with
            | ':' :: rest2 =>
                let rest3 := rest2.dropWhile isSpaceTab
                let value := rest3.takeWhile isValueChar
                let rest4 := rest3.dropWhile isValueChar
                match rest4 with
                | '\r' :: '\n' :: rest5 => parseHeadersAux fuel rest5 (⟨name, value⟩ :: acc)
                | '\n' :: rest5 => parseHeadersAux fuel rest5 (⟨name, value⟩ :: acc)
                | '\r' :: [] => .ok .incomplete
                | [] => .ok .incomplete
                | _ => .error ()
            | _ => .error ()

/-- Modelled from the external `httparse` crate: see `parseHeadersAux`. -/
def parse_headers (bs : RStr) : Except Unit ParseStatus :=
  parseHeadersAux (bs.length + 1) bs []

/-- Embeds the `Host` extraction of `Session::parse_header_line`
(session.rs:163-170): the value of the *last* header whose name is exactly
`"Host"` (case-sensitive, like Rust's `h.name == "Host"`). -/
def lastHost (headers : List Header) : Option RStr :=
  ((headers.filter (fun h => decide (h.name = "Host".toList))).getLast?).map Header.value

/-- Position of the first LF in a byte string, if any. -/
def firstNl? : RStr → Option Nat
  | [] => none
  | c :: cs => if c = '\n' then some 0 else (firstNl? cs).map (· + 1)

/-- Embeds the `for i in 0..buf.len() { if buf[i] == b'\n' { idx = i; break } }`
scan of `Session::parse_header_line`: the index of the first LF, or 0 when
there is none. -/
def firstNlIdx (buf : RStr) : Nat := (firstNl? buf).getD 0

/-- Embeds the would-block branch of `Session::parse_header_line`
(session.rs:149-181): find the request-line terminator, parse everything
after it as headers, and return the last `Host` value on a complete parse;
in every other case — headers incomplete, *or the header block malformed*
(the parse error is only logged) — return the original read error `e`
(which has kind `WouldBlock`). -/
def attemptParse (buf : RStr) (e : IOError) : Except IOError RStr :=
  let idx := firstNlIdx buf
  match parse_headers (buf.drop (idx + 1)) with
  | .ok (.complete headers) =>
      match lastHost headers with
      | some host => .ok host
      | none => .error e
  | .ok .incomplete => .error e
  | .error _ => .error e

/-- One outcome of a `read` call on the downstream socket: a chunk of bytes
(`chunk []` models `Ok(0)`, i.e. EOF) or an error. -/
inductive ReadEvent
  | chunk (bs : RStr)
  | rerr (e : IOError)

/-- Embeds `Session::parse_header_line` (session.rs:132-185): read and
accumulate bytes into `connect_header_buf` until a read fails; a would-block
failure triggers the parse attempt.  The read script is finite; exhausting
it models a read that returns would-block.  Returns the result together
with the updated buffer. -/
def parse_header_line : List ReadEvent → RStr → Except IOError RStr × RStr
  | [], buf => (attemptParse buf wbErr, buf)
  | .chunk bs :: rest, buf =>
      if bs.isEmpty then (.error ⟨.other, "eof"⟩, buf)
      else parse_header_line rest (buf ++ bs)
  | .rerr e :: _, buf =>
      if e.kind = .wouldBlock then (attemptParse buf e, buf) else (.error e, buf)

/- ### `src/session.rs`: the Session state machine -/

/-- Embeds `enum State { Piping, Head }`. -/
inductive State
  | Piping
  | Head
  deriving DecidableEq, Repr

/-- Embeds `struct Session`.  The two `TcpStream` fields are not data (their
I/O is supplied by environments); `hasUpSock` records `up_sock.is_some()`. -/
structure Session where
  state : State
  down_sock_id : Nat
  up_sock_id : Nat
  hasUpSock : Bool
  connect_header_buf : RStr
  is_https : Bool
  host : RStr
  deriving DecidableEq, Repr

/-- Embeds `Session::new`. -/
def Session.new (down_sock_id : Nat) : Session :=
  ⟨.Head, down_sock_id, 0, false, [], false, []⟩

/-- Embeds `Session::formatHost` (session.rs:187-192).  Note that Rust's
`str::replace` matches its pattern *literally*, so `replace("https?://", "")`
never changes anything (no URL contains the literal text `https?://`), and
`replace("/", "")` then deletes every slash. -/
def formatHost (s : RStr) : RStr :=
  if rHasPre "http".toList s then
    rReplace '/' [] [] (rReplace 'h' "ttps?://".toList [] s)
  else s

/-- Environment for `Session::connect`: the downstream read script, the
external resolver, and the outcomes of `TcpStream::connect` and
`Registry::register` together with the fd the OS assigns to the new
upstream socket. -/
structure ConnectEnv where
  readScript : List ReadEvent
  resolve : RStr → Option (List IpAddr)
  newFd : Nat
  connectErr : Option IOError
  registerErr : Option IOError

/-- Result of `Session::connect`: the Rust return value, the mutated
session and DNS cache, plus the observable effects — which host was passed
to `DNS::query`, which address was passed to `TcpStream::connect`, and
which fd was registered with the reactor. -/
structure ConnectOut where
  result : Except IOError Nat
  session : Session
  dns : DNS
  queriedHost : Option RStr
  upAddr : Option (IpAddr × Nat)
  registeredFd : Option Nat

/-- Embeds `Session::connect` (session.rs:194-234). -/
def Session.connect (env : ConnectEnv) (dns : DNS) (s : Session) : ConnectOut :=
  match parse_header_line env.readScript s.connect_header_buf with
  | (.error e, buf1) =>
      ⟨.error e, { s with connect_header_buf := buf1 }, dns, none, none, none⟩
  | (.ok header_line, buf1) =>
      let s1 : Session := { s with connect_header_buf := buf1 }
      let url := ((rSplit ' ' header_line).take 2).getLastD []
      let s2 : Session := { s1 with is_https := rEndsWith ":443".toList url }
      let format_url := formatHost url
      let host_port := rSplit ':' format_url
      let host := host_port.headD []
      let s3 : Session := { s2 with host := host }
      match DNS.query env.resolve dns host with
      | (none, dns1, _) =>
          ⟨.error ⟨.networkUnreachable, "dns qwuery failed"⟩, s3, dns1, some host, none, none⟩
      | (some ip, dns1, _) =>
          match parsePort ((host_port.get? 1).getD "80".toList) with
          | none => ⟨.error ⟨.panicked, "u16 parse unwrap"⟩, s3, dns1, some host, none, none⟩
          | some port =>
              match env.connectErr with
              | some e => ⟨.error e, s3, dns1, some host, some (ip, port), none⟩
              | none =>
                  match env.registerErr with
                  | some e => ⟨.error e, s3, dns1, some host, some (ip, port), none⟩
                  | none =>
                      ⟨.ok env.newFd,
                       { s3 with hasUpSock := true, up_sock_id := env.newFd },
                       dns1, some host, some (ip, port), some env.newFd⟩

/-- Embeds `Session::down2up` (session.rs:75-110): relay downstream→upstream
via `splice_copy`; a zero-byte success becomes `UnexpectedEof`; a would-block
error is re-wrapped as `WouldBlock`; all other errors become `Other`. -/
def Session.down2up (sp : SpliceState) (s : Session) : Except IOError Nat × SpliceState :=
  if s.hasUpSock then
    match splice_copy sp with
    | (.ok size, sp1) =>
        if size = 0 then (.error ⟨.unexpectedEof, "eof"⟩, sp1) else (.ok size, sp1)
    | (.error e, sp1) =>
        if e.kind = .wouldBlock then (.error wbErr, sp1)
        else (.error ⟨.other, e.msg⟩, sp1)
  else (.error ⟨.other, "up not ready"⟩, sp)

/-- Embeds `Session::up2down` (session.rs:112-130); the source's
`self.up_sock.as_mut().unwrap()` panics when there is no upstream socket. -/
def Session.up2down (sp : SpliceState) (s : Session) : Except IOError Nat × SpliceState :=
  if s.hasUpSock then
    match splice_copy sp with
    | (.ok size, sp1) => (.ok size, sp1)
    | (.error e, sp1) =>
        if e.kind = .wouldBlock then (.error wbErr, sp1)
        else (.error ⟨.other, e.msg⟩, sp1)
  else (.error ⟨.panicked, "unwrap on None"⟩, sp)

/-- Embeds `Session::pipe` (session.rs:236-246): relay in the direction
selected by `sock_id`; an identity matching neither socket transfers
nothing and returns `Ok(0)`.  `dsp`/`usp` are the downstream→upstream and
upstream→downstream relay states. -/
def Session.pipe (dsp usp : SpliceState) (s : Session) (sock_id : Nat) :
    Except IOError Nat × SpliceState × SpliceState :=
  if sock_id = s.down_sock_id then
    match s.down2up dsp with
    | (.ok u, dsp1) => (.ok (0 + u), dsp1, usp)
    | (.error e, dsp1) => (.error e, dsp1, usp)
  else if sock_id = s.up_sock_id then
    match s.up2down usp with
    | (.ok u, usp1) => (.ok (0 + u), dsp, usp1)
    | (.error e, usp1) => (.error e, dsp, usp1)
  else (.ok 0, dsp, usp)

/-- The fixed tunnel-established reply (session.rs:257). -/
def tunnelResponse : RStr := "HTTP/1.1 200 Connection established\r\n\r\n".toList

/-- Environment for `Session::handle_write`: outcomes of the two
`take_error` probes, the `peer_addr` probe, and of the downstream
`write_all`. -/
structure WriteEnv where
  takeError1 : Except IOError (Option IOError)
  takeError2 : Except IOError (Option IOError)
  peerAddrErr : Option IOError
  downWriteErr : Option IOError

/-- Embeds `Session::handle_up_sock_connected` (session.rs:248-279).  The
two extra components are the bytes written to the downstream and to the
upstream socket by this call (recorded on success; the upstream `write_all`
result is discarded by the source, and nothing is written when `up_sock` is
`None`). -/
def Session.handle_up_sock_connected (env : WriteEnv) (s : Session) (tok : Nat) :
    Except IOError Unit × Session × RStr × RStr :=
  match s.state with
  | .Head =>
      if tok = s.up_sock_id then
        if s.is_https then
          match env.downWriteErr with
          | some e => (.error e, s, [], [])
          | none => (.ok (), { s with state := .Piping }, tunnelResponse, [])
        else
          (.ok (), { s with state := .Piping }, [],
           if s.hasUpSock then s.connect_header_buf else [])
      else (.ok (), s, [], [])
  | .Piping => (.ok (), s, [], [])

/-- Embeds `Session::handle_write` (session.rs:281-313): probe for a pending
upstream connect error ("not yet connected" becomes would-block), then run
`handle_up_sock_connected`. -/
def Session.handle_write (env : WriteEnv) (s : Session) (tok : Nat) :
    Except IOError Unit × Session × RStr × RStr :=
  let probe : Option (Except IOError Unit) :=
    if s.hasUpSock then
      some (
        match env.takeError1 with
        | .error e =>
            .error (if e.kind = .notConnected then ⟨.wouldBlock, "not connected"⟩ else e)
        | .ok _ =>
            match env.takeError2 with
            | .ok (some e) =>
                .error (if e.kind = .notConnected then ⟨.wouldBlock, "not connected"⟩ else e)
            | _ =>
                match env.peerAddrErr with
                | some e =>
                    .error (if e.kind = .notConnected then ⟨.wouldBlock, "not connected"⟩ else e)
                | none => .ok ())
    else none
  match probe with
  | some (.error e) => (.error e, s, [], [])
  | _ => s.handle_up_sock_connected env tok

/- ### `src/main.rs`: registry, reactor driver -/

/-- The observable state of the reactor program: the `SessionRegistry`
(token → index into the session store), the store of live sessions (the
Rust `Rc<RefCell<Session>>` values; two registry entries may point at the
same index, which models the shared `Rc`), the set of descriptors currently
registered with the reactor, and the DNS cache. -/
structure World where
  registry : List (Nat × Nat)
  sessions : List Session
  reactor : List Nat
  dns : DNS
  deriving DecidableEq, Repr

/-- The world the program starts in (empty registry, empty caches). -/
def World.init : World := ⟨[], [], [], DNS.new⟩

/-- Reactor deregistration of a descriptor. -/
def dereg (fd : Nat) (l : List Nat) : List Nat :=
  l.filter (fun x => !(decide (x = fd)))

/-- Embeds `closeSession` (main.rs:126-157): remove the triggering token;
if a session was found, also remove its *other* identity (the upstream id
when the token is the downstream id, and vice versa), then deregister the
downstream socket and, when present, the upstream socket. -/
def closeSession (w : World) (tok : Nat) : World :=
  match alookup tok w.registry with
  | none => w
  | some idx =>
      match w.sessions.get? idx with
      | none => { w with registry := aremove tok w.registry }
      | some s =>
          let reg1 := aremove tok w.registry
          let reg2 :=
            if tok = s.down_sock_id then aremove s.up_sock_id reg1
            else aremove s.down_sock_id reg1
          let r1 := dereg s.down_sock_id w.reactor
          let r2 := if s.hasUpSock then dereg s.up_sock_id r1 else r1
          { w with registry := reg2, reactor := r2 }

/-- Environment for `accept`: the descriptor the OS assigns to the accepted
socket and the outcome of `Registry::register`. -/
structure AcceptEnv where
  fd : Nat
  registerErr : Option IOError

/-- Embeds `accept` (main.rs:94-124): create a session for the accepted
socket, register it for read+write readiness, and insert it into the
registry under its downstream identity (on register failure the session is
dropped). -/
def accept (env : AcceptEnv) (w : World) : Except IOError Unit × World :=
  match env.registerErr with
  | some e => (.error e, w)
  | none =>
      (.ok (),
       { w with
         sessions := w.sessions ++ [Session.new env.fd],
         registry := ainsert env.fd w.sessions.length w.registry,
         reactor := env.fd :: w.reactor })

/-- Embeds `handleRead` (main.rs:171-218): look the token up; in `Head`
state run `Session::connect` and, on success, insert the session under the
new upstream identity (a would-block error is swallowed); in `Piping` state
run `Session::pipe` (a would-block error is swallowed). -/
def handleRead (cenv : ConnectEnv) (dsp usp : SpliceState) (w : World) (tok : Nat) :
    Except IOError Unit × World × SpliceState × SpliceState :=
  match alookup tok w.registry with
  | none => (.ok (), w, dsp, usp)
  | some idx =>
      match w.sessions.get? idx with
      | none => (.ok (), w, dsp, usp)
      | some s =>
          match s.state with
          | .Head =>
              let out := Session.connect cenv w.dns s
              let w1 : World := { w with
                sessions := w.sessions.set idx out.session,
                dns := out.dns,
                reactor :=
                  match out.registeredFd with
                  | some fd => fd :: w.reactor
                  | none => w.reactor }
              match out.result with
              | .ok fd => (.ok (), { w1 with registry := ainsert fd idx w1.registry }, dsp, usp)
              | .error e =>
                  if e.kind = .wouldBlock then (.ok (), w1, dsp, usp)
                  else (.error e, w1, dsp, usp)
          | .Piping =>
              match Session.pipe dsp usp s tok with
              | (.ok _, dsp1, usp1) => (.ok (), w, dsp1, usp1)
              | (.error e, dsp1, usp1) =>
                  if e.kind = .wouldBlock then (.ok (), w, dsp1, usp1)
                  else (.error e, w, dsp1, usp1)

/-- Embeds `handleWrite` (main.rs:159-169): look the token up and run the
session's write handler; the written byte streams are returned for
observation. -/
def handleWrite (wenv : WriteEnv) (w : World) (tok : Nat) :
    Except IOError Unit × World × RStr × RStr :=
  match alookup tok w.registry with
  | none => (.ok (), w, [], [])
  | some idx =>
      match w.sessions.get? idx with
      | none => (.ok (), w, [], [])
      | some s =>
          match Session.handle_write wenv s tok with
          | (r, s1, dOut, uOut) =>
              (r, { w with sessions := w.sessions.set idx s1 }, dOut, uOut)

/-- A readiness event as dispatched by the driver loop. -/
structure Evt where
  tok : Nat
  readable : Bool
  writable : Bool
  readClosed : Bool
  writeClosed : Bool
  isError : Bool
  deriving DecidableEq, Repr

/-- I/O environment for dispatching one event. -/
structure EventEnv where
  cenv : ConnectEnv
  wenv : WriteEnv
  dsp : SpliceState
  usp : SpliceState

/-- Embeds the readable sub-dispatch of the driver loop (main.rs:47-59):
a non-would-block error from `handleRead` closes the session. -/
def readPhase (env : EventEnv) (w : World) (evt : Evt) : World :=
  if evt.readable then
    match handleRead env.cenv env.dsp env.usp w evt.tok with
    | (.ok _, w1, _, _) => w1
    | (.error e, w1, _, _) =>
        if e.kind = .wouldBlock then w1 else closeSession w1 evt.tok
  else w

/-- Embeds the writable sub-dispatch of the driver loop (main.rs:61-68):
a non-would-block error from `handleWrite` closes the session. -/
def writePhase (env : EventEnv) (w : World) (evt : Evt) : World :=
  if evt.writable then
    match handleWrite env.wenv w evt.tok with
    | (.ok _, w1, _, _) => w1
    | (.error e, w1, _, _) =>
        if e.kind = .wouldBlock then w1 else closeSession w1 evt.tok
  else w

/-- Embeds the closure-flag sub-dispatch of the driver loop
(main.rs:70-78): read-closed, error and write-closed each close the
session. -/
def closePhase (w : World) (evt : Evt) : World :=
  let w1 := if evt.readClosed then closeSession w evt.tok else w
  let w2 := if evt.isError then closeSession w1 evt.tok else w1
  if evt.writeClosed then closeSession w2 evt.tok else w2

/-- Embeds the per-event body of the driver loop (main.rs:46-79) for a
non-listener token: readable handling, then writable handling, then the
closure flags. -/
def dispatchEvent (env : EventEnv) (w : World) (evt : Evt) : World :=
  closePhase (writePhase env (readPhase env w evt) evt) evt

/- ### Generic helper lemmas -/

theorem not_mem_dereg_self (fd : Nat) (l : List Nat) : fd ∉ dereg fd l := by
  intro hmem
  rcases List.mem_filter.mp hmem with ⟨_, hp⟩
  simp at hp

theorem not_mem_dereg_of_not_mem (x fd : Nat) (l : List Nat) (h : x ∉ l) :
    x ∉ dereg fd l := fun hm => h (List.mem_filter.mp hm).1

theorem list_set_get_eq {α : Type} (l : List α) (i : Nat) (a : α)
    (h : l.get? i = some a) : l.set i a = l := by
  induction l generalizing i with
  | nil => simp at h
  | cons b bs ih =>
      cases i with
      | zero =>
          simp [List.get?] at h
          simp [List.set, h]
      | succ j =>
          have h' : bs.get? j = some a := h
          simp [List.set, ih j h']

/- ## Claim C10: `pipe` with an unknown identity -/

/-- C10: in state `Piping`, calling `Session::pipe` with an identity equal
to neither `down_sock_id` nor `up_sock_id` performs no transfer in either
direction and returns `Ok(0)`. -/
theorem pipe_unknown_id_ok_zero (dsp usp : SpliceState) (s : Session) (sock_id : Nat)
    (hstate : s.state = .Piping)
    (hd : sock_id ≠ s.down_sock_id) (hu : sock_id ≠ s.up_sock_id) :
    Session.pipe dsp usp s sock_id = (.ok 0, dsp, usp) := by
  simp [Session.pipe, hd, hu]

/-- Witness for `pipe_unknown_id_ok_zero`. -/
theorem pipe_unknown_id_ok_zero_witness :
    Session.pipe ⟨[], false, 0, []⟩ ⟨[], false, 0, []⟩
      ⟨.Piping, 3, 7, true, [], true, []⟩ 9 =
      (.ok 0, ⟨[], false, 0, []⟩, ⟨[], false, 0, []⟩) :=
  pipe_unknown_id_ok_zero ⟨[], false, 0, []⟩ ⟨[], false, 0, []⟩
    ⟨.Piping, 3, 7, true, [], true, []⟩ 9 rfl (by decide) (by decide)

/- ## Claim C2: `closeSession` removes both identities -/

/-- C2: for a session in state `Piping` whose downstream and upstream
identities both resolve to it in the registry, a close event on either
identity removes *both* identity mappings and deregisters both descriptors
from the reactor: afterwards neither identity resolves to the session. -/
theorem closeSession_removes_both (w : World) (tok idx : Nat) (s : Session)
    (hidx : w.sessions.get? idx = some s)
    (hstate : s.state = .Piping)
    (hup : s.hasUpSock = true)
    (hdreg : alookup s.down_sock_id w.registry = some idx)
    (hureg : alookup s.up_sock_id w.registry = some idx)
    (hne : s.down_sock_id ≠ s.up_sock_id)
    (htok : tok = s.down_sock_id ∨ tok = s.up_sock_id) :
    alookup s.down_sock_id (closeSession w tok).registry = none ∧
    alookup s.up_sock_id (closeSession w tok).registry = none ∧
    s.down_sock_id ∉ (closeSession w tok).reactor ∧
    s.up_sock_id ∉ (closeSession w tok).reactor := by
  rcases htok with htok | htok
  · subst htok
    simp only [closeSession, hdreg, hidx, if_pos rfl, hup, if_pos]
    refine ⟨?_, ?_, ?_, ?_⟩
    · rw [alookup_aremove_ne _ _ _ hne, alookup_aremove_self]
    · rw [alookup_aremove_self]
    · exact not_mem_dereg_of_not_mem _ _ _ (not_mem_dereg_self _ _)
    · exact not_mem_dereg_self _ _
  · subst htok
    simp only [closeSession, hureg, hidx, if_neg (Ne.symm hne), hup, if_pos]
    refine ⟨?_, ?_, ?_, ?_⟩
    · rw [alookup_aremove_self]
    · rw [alookup_aremove_ne _ _ _ (Ne.symm hne), alookup_aremove_self]
    · exact not_mem_dereg_of_not_mem _ _ _ (not_mem_dereg_self _ _)
    · exact not_mem_dereg_self _ _

/-- Witness for `closeSession_removes_both`: a concrete relaying world,
closed via the downstream identity. -/
theorem closeSession_removes_both_witness :
    alookup 3 (closeSession
        ⟨[(3, 0), (7, 0)], [⟨.Piping, 3, 7, true, [], true, []⟩], [3, 7], DNS.new⟩
        3).registry = none ∧
    alookup 7 (closeSession
        ⟨[(3, 0), (7, 0)], [⟨.Piping, 3, 7, true, [], true, []⟩], [3, 7], DNS.new⟩
        3).registry = none ∧
    (3 : Nat) ∉ (closeSession
        ⟨[(3, 0), (7, 0)], [⟨.Piping, 3, 7, true, [], true, []⟩], [3, 7], DNS.new⟩
        3).reactor ∧
    (7 : Nat) ∉ (closeSession
        ⟨[(3, 0), (7, 0)], [⟨.Piping, 3, 7, true, [], true, []⟩], [3, 7], DNS.new⟩
        3).reactor :=
  closeSession_removes_both
    ⟨[(3, 0), (7, 0)], [⟨.Piping, 3, 7, true, [], true, []⟩], [3, 7], DNS.new⟩
    3 0 ⟨.Piping, 3, 7, true, [], true, []⟩
    rfl rfl rfl (by decide) (by decide) (by decide) (Or.inl rfl)

/- ## Claim C8: last case-sensitive `Host` header wins -/

/-- Wire form of one header line: `name ": " value CRLF`. -/
def renderHeader (p : RStr × RStr) : RStr := p.1 ++ ':' :: ' ' :: p.2 ++ ['\r', '\n']

/-- Wire form of a header block: the header lines followed by the empty
line. -/
def renderHeaders (hs : List (RStr × RStr)) : RStr :=
  (hs.map renderHeader).join ++ ['\r', '\n']

/-- A well-formed header field name: non-empty, all token characters. -/
def nameOK (n : RStr) : Prop := n ≠ [] ∧ ∀ c ∈ n, isTokenChar c = true

/-- The first character of the value (if any) is not a space or tab (so the
rendered `": "` separator is what the parser skips). -/
def headNotSpace (v : RStr) : Bool :=
  match v with
  | [] => true
  | c :: _ => !(isSpaceTab c)

/-- A well-formed header value: no CR/LF inside, no leading whitespace. -/
def valueOK (v : RStr) : Prop :=
  (∀ c ∈ v, isValueChar c = true) ∧ headNotSpace v = true

instance (n : RStr) : Decidable (nameOK n) := by unfold nameOK; infer_instance

instance (v : RStr) : Decidable (valueOK v) := by unfold valueOK; infer_instance

/-- One step of the header-block parser: a rendered well-formed header line
is consumed and accumulated. -/
theorem parseHeadersAux_step (fuel : Nat) (n0 : Char) (nt v rest : RStr) (acc : List Header)
    (hname : ∀ c ∈ n0 :: nt, isTokenChar c = true)
    (hv : valueOK v)
    (hacc : acc.length ≠ 10) :
    parseHeadersAux (fuel + 1)
      ((n0 :: nt) ++ (':' :: ' ' :: (v ++ ('\r' :: '\n' :: rest)))) acc =
    parseHeadersAux fuel rest (⟨n0 :: nt, v⟩ :: acc) := by
  obtain ⟨hval, hvh⟩ := hv
  have h0 : isTokenChar n0 = true := hname n0 (by simp)
  have hnt : ∀ c ∈ nt, isTokenChar c = true := fun c hc => hname c (by simp [hc])
  have h0r : ¬(n0 = '\r') := fun h => absurd h0 (by simp [h]; decide)
  have h0n : ¬(n0 = '\n') := fun h => absurd h0 (by simp [h]; decide)
  have ht : List.takeWhile isTokenChar
      (n0 :: (nt ++ (':' :: ' ' :: (v ++ ('\r' :: '\n' :: rest))))) = n0 :: nt := by
    rw [List.takeWhile_cons_of_pos h0, List.takeWhile_append_of_pos hnt,
      List.takeWhile_cons_of_neg (by decide)]
    simp
  have hd : List.dropWhile isTokenChar
      (n0 :: (nt ++ (':' :: ' ' :: (v ++ ('\r' :: '\n' :: rest))))) =
      ':' :: ' ' :: (v ++ ('\r' :: '\n' :: rest)) := by
    rw [List.dropWhile_cons_of_pos h0, List.dropWhile_append_of_pos hnt,
      List.dropWhile_cons_of_neg (by decide)]
  have h3 : List.dropWhile isSpaceTab (' ' :: (v ++ ('\r' :: '\n' :: rest))) =
      v ++ ('\r' :: '\n' :: rest) := by
    rw [List.dropWhile_cons_of_pos (by decide)]
    cases v with
    | nil => rw [List.nil_append, List.dropWhile_cons_of_neg (by decide)]
    | cons c0 vt =>
        have : isSpaceTab c0 = false := by
          simpa [headNotSpace] using hvh
        rw [List.cons_append, List.dropWhile_cons_of_neg (by simp [this])]
  have hv1 : List.takeWhile isValueChar (v ++ ('\r' :: '\n' :: rest)) = v := by
    rw [List.takeWhile_append_of_pos hval, List.takeWhile_cons_of_neg (by decide)]
    simp
  have hv2 : List.dropWhile isValueChar (v ++ ('\r' :: '\n' :: rest)) =
      '\r' :: '\n' :: rest := by
    rw [List.dropWhile_append_of_pos hval, List.dropWhile_cons_of_neg (by decide)]
  simp only [List.cons_append, parseHeadersAux, h0r, h0n, hacc, ht, hd, h3, hv1, hv2,
    if_false, ite_false]
  split <;> simp_all

/-- The header-block parser recovers exactly the rendered header list. -/
theorem parseHeadersAux_render (hs : List (RStr × RStr)) :
    ∀ (fuel : Nat) (acc : List Header),
      (renderHeaders hs).length < fuel →
      acc.length + hs.length ≤ 10 →
      (∀ p ∈ hs, nameOK p.1 ∧ valueOK p.2) →
      parseHeadersAux fuel (renderHeaders hs) acc =
        .ok (.complete (acc.reverse ++ hs.map (fun p => ⟨p.1, p.2⟩))) := by
  induction hs with
  | nil =>
      intro fuel acc hfuel _ _
      cases fuel with
      | zero => exact absurd hfuel (by simp)
      | succ f => simp [parseHeadersAux, renderHeaders]
  | cons p ps ih =>
      intro fuel acc hfuel hlen hwf
      obtain ⟨n, v⟩ := p
      obtain ⟨⟨hne, htok⟩, hv⟩ := hwf (n, v) (by simp)
      have hwf' : ∀ q ∈ ps, nameOK q.1 ∧ valueOK q.2 := fun q hq => hwf q (by simp [hq])
      have hr : renderHeaders ((n, v) :: ps) =
          n ++ (':' :: ' ' :: (v ++ ('\r' :: '\n' :: renderHeaders ps))) := by
        simp [renderHeaders, renderHeader, List.join]
      cases hn0 : n with
      | nil => exact absurd hn0 hne
      | cons n0 nt =>
          subst hn0
          have hlps : (renderHeaders ps).length + 5 ≤
              (renderHeaders ((n0 :: nt, v) :: ps)).length := by
            rw [hr]; simp; omega
          cases fuel with
          | zero => exact absurd hfuel (by omega)
          | succ f =>
              have hfy : (renderHeaders ps).length < f := by omega
              have hacc10 : acc.length ≠ 10 := by simp at hlen; omega
              rw [hr, parseHeadersAux_step f n0 nt v (renderHeaders ps) acc
                  (by intro c hc; exact (hwf (n0 :: nt, v) (by simp)).1.2 c hc)
                  hv hacc10]
              rw [ih f (⟨n0 :: nt, v⟩ :: acc) hfy
                  (by simp at hlen ⊢; omega) hwf']
              simp

/-- `parse_headers` (with its own fuel) on a rendered well-formed block. -/
theorem parse_headers_render (hs : List (RStr × RStr))
    (h10 : hs.length ≤ 10)
    (hwf : ∀ p ∈ hs, nameOK p.1 ∧ valueOK p.2) :
    parse_headers (renderHeaders hs) = .ok (.complete (hs.map (fun p => ⟨p.1, p.2⟩))) := by
  rw [parse_headers, parseHeadersAux_render hs ((renderHeaders hs).length + 1) []
    (by omega) (by simpa) hwf]
  simp

/-- The composition the source applies to a raw header block: parse it,
then extract the last case-sensitive `Host` value (session.rs:157-170). -/
def hostFromBytes (bs : RStr) : Option RStr :=
  match parse_headers bs with
  | .ok (.complete headers) => lastHost headers
  | _ => none

/-- C8: on a well-formed header block, the parser extracts the value of the
*last* occurrence of the field named exactly `"Host"`; fields of any other
name — including other casings such as `"host"` — are not matched. -/
theorem host_last_case_sensitive (hs : List (RStr × RStr))
    (h10 : hs.length ≤ 10)
    (hwf : ∀ p ∈ hs, nameOK p.1 ∧ valueOK p.2) :
    hostFromBytes (renderHeaders hs) =
      ((hs.filter (fun p => decide (p.1 = "Host".toList))).getLast?).map (fun p => p.2) := by
  rw [hostFromBytes, parse_headers_render hs h10 hwf]
  simp only [lastHost]
  rw [List.filter_map, List.getLast?_map, Option.map_map]
  rfl

/-- Witness for `host_last_case_sensitive`: a block with a lowercase `host`
header and two `Host` headers; the last `Host` value wins and the lowercase
one is ignored. -/
theorem host_last_case_sensitive_witness :
    hostFromBytes (renderHeaders
      [("host".toList, "a.example".toList),
       ("Host".toList, "b.example".toList),
       ("Host".toList, "c.example".toList)]) = some ("c.example".toList) := by
  rw [host_last_case_sensitive
      [("host".toList, "a.example".toList),
       ("Host".toList, "b.example".toList),
       ("Host".toList, "c.example".toList)]
      (by decide) (by decide)]
  decide

/- ### End-to-end header-line parsing -/

theorem rSplit_no_sep (sep : Char) (s : RStr) (h : sep ∉ s) : rSplit sep s = [s] := by
  induction s with
  | nil => rfl
  | cons c cs ih =>
      have hc : ¬(c = sep) := fun hh => h (by simp [hh])
      have hcs : sep ∉ cs := fun hm => h (by simp [hm])
      simp [rSplit, ih hcs, hc]

theorem rSplit_single (sep : Char) (a b : RStr) (ha : sep ∉ a) (hb : sep ∉ b) :
    rSplit sep (a ++ sep :: b) = [a, b] := by
  induction a with
  | nil => simp [rSplit, rSplit_no_sep sep b hb]
  | cons c cs ih =>
      have hc : ¬(c = sep) := fun hh => ha (by simp [hh])
      have hcs : sep ∉ cs := fun hm => ha (by simp [hm])
      simp [rSplit, ih hcs, hc]

theorem firstNl?_append (rl tail : RStr) (h : '\n' ∉ rl) :
    firstNl? (rl ++ '\r' :: '\n' :: tail) = some (rl.length + 1) := by
  induction rl with
  | nil => simp [firstNl?]
  | cons c cs ih =>
      have hc : ¬(c = '\n') := fun hh => h (by simp [hh])
      have hcs : '\n' ∉ cs := fun hm => h (by simp [hm])
      simp [firstNl?, hc, ih hcs]

theorem drop_after_crlf (rl tail : RStr) :
    (rl ++ '\r' :: '\n' :: tail).drop (rl.length + 1 + 1) = tail := by
  induction rl with
  | nil => rfl
  | cons c cs ih => simpa using ih

/-- The complete downstream request bytes for a request line `rl` followed
by a single `Host` header with value `v`. -/
def mkRequest (rl v : RStr) : RStr :=
  rl ++ '\r' :: '\n' :: renderHeaders [("Host".toList, v)]

/-- The parse attempt on a buffered request with one well-formed `Host`
header returns that header's value. -/
theorem attemptParse_single_host (rl v : RStr) (e : IOError)
    (hrl : '\n' ∉ rl) (hv : valueOK v) :
    attemptParse (mkRequest rl v) e = .ok v := by
  have hHost : nameOK ("Host".toList) := by decide
  have hwf : ∀ p ∈ [("Host".toList, v)], nameOK p.1 ∧ valueOK p.2 := by
    intro p hp
    simp at hp
    subst hp
    exact ⟨hHost, hv⟩
  rw [attemptParse, mkRequest, firstNlIdx, firstNl?_append rl _ hrl]
  simp only [Option.getD_some]
  rw [drop_after_crlf, parse_headers_render [("Host".toList, v)] (by simp) hwf]
  simp [lastHost]

/-- `parse_header_line` on a script that delivers the whole request and then
would-blocks: the buffer accumulates the request and the `Host` value is
returned. -/
theorem parse_header_line_single (rl v : RStr) (hrl : '\n' ∉ rl) (hv : valueOK v) :
    parse_header_line [.chunk (mkRequest rl v)] [] = (.ok v, mkRequest rl v) := by
  have hne : (mkRequest rl v).isEmpty = false := by
    rw [List.isEmpty_eq_false]
    simp [mkRequest]
  simp only [parse_header_line, hne, Bool.false_eq_true, if_false, List.nil_append]
  rw [attemptParse_single_host rl v wbErr hrl hv]

/- ## Claims C3 and C4: target derivation, scheme stripping, tunnel detection -/

/-- Follows the spec's words (for comparison with the code): "From the
request line's target token" — the second whitespace-separated token of the
first line of the request bytes. -/
def specRequestTarget (req : RStr) : RStr :=
  ((rSplit ' ' (req.takeWhile (fun c => !(c == '\r') && !(c == '\n')))).get? 1).getD []

/-- Follows the spec's words (for comparison with the code): "strip any
scheme prefix to obtain target_host[:port]" — drop a literal `http://` or
`https://` prefix and everything from the first following slash. -/
def specStripScheme (t : RStr) : RStr :=
  let t1 :=
    if rHasPre "http://".toList t then t.drop 7
    else if rHasPre "https://".toList t then t.drop 8 else t
  t1.takeWhile (fun c => !(c == '/'))

/-- A plain-HTTP request whose request-line target carries a scheme prefix
(target host `example.com`) but whose `Host` header names `other.test`. -/
def c3Request : RStr :=
  "GET http://example.com/ HTTP/1.1\r\nHost: other.test\r\n\r\n".toList

/-- The resolver for the C3 counterexample run. -/
def c3Resolve : RStr → Option (List IpAddr) :=
  fun h => if h = "other.test".toList then some ["10.0.0.1"] else none

/-- C3 counterexample: for a request whose request-line target token is
`http://example.com/` (a scheme-carrying target whose bare host is
`example.com`), `connect` does not derive `target_host` from the request
line at all: it uses the `Host` header value (`other.test`), and that is the
host the resolver is queried for.  Moreover `formatHost`, the function that
is supposed to strip the scheme, maps `http://example.com/` to
`http:example.com` (Rust's literal `replace("https?://", "")` matches
nothing and `replace("/", "")` deletes the slashes), not to `example.com`. -/
theorem connect_scheme_counterexample :
    rHasPre "http://".toList (specRequestTarget c3Request) = true ∧
    specStripScheme (specRequestTarget c3Request) = "example.com".toList ∧
    (Session.connect ⟨[.chunk c3Request], c3Resolve, 7, none, none⟩
        DNS.new (Session.new 3)).session.host = "other.test".toList ∧
    (Session.connect ⟨[.chunk c3Request], c3Resolve, 7, none, none⟩
        DNS.new (Session.new 3)).queriedHost = some ("other.test".toList) ∧
    (Session.connect ⟨[.chunk c3Request], c3Resolve, 7, none, none⟩
        DNS.new (Session.new 3)).session.host ≠
      specStripScheme (specRequestTarget c3Request) ∧
    formatHost ("http://example.com/".toList) = "http:example.com".toList := by
  refine ⟨by decide, by decide, by decide, by decide, by decide, by decide⟩

/-- The fully-reduced outcome of `Session::connect` on a fresh session fed
one complete request whose `Host` header is `hst ++ sfx` (`sfx` empty, or a
`:port` suffix), with a resolver that knows `hst` and an upstream
connect/register that succeed. -/
theorem connect_success_eq (rl hst sfx : RStr) (port : Nat) (dns : DNS) (fd newFd : Nat)
    (resolve : RStr → Option (List IpAddr)) (ip : IpAddr) (ips : List IpAddr)
    (hrl : '\n' ∉ rl)
    (hv : valueOK (hst ++ sfx))
    (hsp : ' ' ∉ hst ++ sfx)
    (hhttp : rHasPre "http".toList (hst ++ sfx) = false)
    (hcolh : ':' ∉ hst)
    (hsfx : (sfx = [] ∧ port = 80) ∨
            (∃ ds, sfx = ':' :: ds ∧ ':' ∉ ds ∧ parsePort ds = some port))
    (hres : resolve hst = some (ip :: ips))
    (hcache : alookup hst dns.cache = none) :
    Session.connect ⟨[.chunk (mkRequest rl (hst ++ sfx))], resolve, newFd, none, none⟩
        dns (Session.new fd) =
      ⟨.ok newFd,
       ⟨.Head, fd, newFd, true, mkRequest rl (hst ++ sfx),
        rEndsWith ":443".toList (hst ++ sfx), hst⟩,
       ⟨ainsert hst (ip :: ips) dns.cache⟩, some hst, some (ip, port), some newFd⟩ := by
  have hpl := parse_header_line_single rl (hst ++ sfx) hrl hv
  have hsplam : rSplit ' ' (hst ++ sfx) = [hst ++ sfx] := rSplit_no_sep _ _ hsp
  have hq : DNS.query resolve dns hst = (some ip, ⟨ainsert hst (ip :: ips) dns.cache⟩, true) := by
    simp [DNS.query, hcache, hres, alookup_ainsert_self]
  have hhttp' : rHasPre ['h', 't', 't', 'p'] (hst ++ sfx) = false := hhttp
  have hfh : formatHost (hst ++ sfx) = hst ++ sfx := by
    simp [formatHost, hhttp, hhttp']
  have h80 : parsePort ['8', '0'] = some 80 := by decide
  rcases hsfx with ⟨hsfx, hport⟩ | ⟨ds, hsfx, hds, hport⟩
  · subst hsfx hport
    simp only [List.append_nil] at hpl hsplam hfh hv hsp hhttp hhttp' ⊢
    have hsplc : rSplit ':' hst = [hst] := rSplit_no_sep _ _ hcolh
    simp [Session.connect, Session.new, hpl, hsplam, hfh, hsplc, hq, h80]
  · subst hsfx
    have hsplc : rSplit ':' (hst ++ ':' :: ds) = [hst, ds] := rSplit_single _ _ _ hcolh hds
    simp [Session.connect, Session.new, hpl, hsplam, hfh, hsplc, hq, hport]

/-- C3 amended: `connect` derives the target from the last `Host` header
value, not from the request-line target (whose scheme `formatHost` fails to
strip); for a request whose `Host` header is the bare host `hst`
(optionally with an explicit `:port`), `target_host` is `hst`, the resolver
is queried for `hst`, and the upstream connection goes to (first resolved
address, parsed port or default 80). -/
theorem connect_host_resolution (rl hst sfx : RStr) (port : Nat) (dns : DNS)
    (fd newFd : Nat) (resolve : RStr → Option (List IpAddr)) (ip : IpAddr) (ips : List IpAddr)
    (hrl : '\n' ∉ rl)
    (hv : valueOK (hst ++ sfx))
    (hsp : ' ' ∉ hst ++ sfx)
    (hhttp : rHasPre "http".toList (hst ++ sfx) = false)
    (hcolh : ':' ∉ hst)
    (hsfx : (sfx = [] ∧ port = 80) ∨
            (∃ ds, sfx = ':' :: ds ∧ ':' ∉ ds ∧ parsePort ds = some port))
    (hres : resolve hst = some (ip :: ips))
    (hcache : alookup hst dns.cache = none) :
    (Session.connect ⟨[.chunk (mkRequest rl (hst ++ sfx))], resolve, newFd, none, none⟩
        dns (Session.new fd)).session.host = hst ∧
    (Session.connect ⟨[.chunk (mkRequest rl (hst ++ sfx))], resolve, newFd, none, none⟩
        dns (Session.new fd)).queriedHost = some hst ∧
    (Session.connect ⟨[.chunk (mkRequest rl (hst ++ sfx))], resolve, newFd, none, none⟩
        dns (Session.new fd)).upAddr = some (ip, port) ∧
    (Session.connect ⟨[.chunk (mkRequest rl (hst ++ sfx))], resolve, newFd, none, none⟩
        dns (Session.new fd)).result = .ok newFd ∧
    alookup hst (Session.connect ⟨[.chunk (mkRequest rl (hst ++ sfx))], resolve, newFd,
        none, none⟩ dns (Session.new fd)).dns.cache = some (ip :: ips) := by
  rw [connect_success_eq rl hst sfx port dns fd newFd resolve ip ips
      hrl hv hsp hhttp hcolh hsfx hres hcache]
  exact ⟨rfl, rfl, rfl, rfl, alookup_ainsert_self _ _ _⟩

/-- Witness for `connect_host_resolution`: the spec's end-to-end scenario
(`GET http://example.com/ ...` with `Host: example.com`, resolver returning
93.184.216.34, upstream port defaulting to 80). -/
theorem connect_host_resolution_witness :
    (Session.connect ⟨[.chunk (mkRequest "GET http://example.com/ HTTP/1.1".toList
        ("example.com".toList ++ []))], (fun _ => some ["93.184.216.34"]), 7, none, none⟩
        DNS.new (Session.new 3)).session.host = "example.com".toList ∧
    (Session.connect ⟨[.chunk (mkRequest "GET http://example.com/ HTTP/1.1".toList
        ("example.com".toList ++ []))], (fun _ => some ["93.184.216.34"]), 7, none, none⟩
        DNS.new (Session.new 3)).queriedHost = some ("example.com".toList) ∧
    (Session.connect ⟨[.chunk (mkRequest "GET http://example.com/ HTTP/1.1".toList
        ("example.com".toList ++ []))], (fun _ => some ["93.184.216.34"]), 7, none, none⟩
        DNS.new (Session.new 3)).upAddr = some ("93.184.216.34", 80) ∧
    (Session.connect ⟨[.chunk (mkRequest "GET http://example.com/ HTTP/1.1".toList
        ("example.com".toList ++ []))], (fun _ => some ["93.184.216.34"]), 7, none, none⟩
        DNS.new (Session.new 3)).result = .ok 7 ∧
    alookup "example.com".toList
      (Session.connect ⟨[.chunk (mkRequest "GET http://example.com/ HTTP/1.1".toList
        ("example.com".toList ++ []))], (fun _ => some ["93.184.216.34"]), 7, none, none⟩
        DNS.new (Session.new 3)).dns.cache = some ["93.184.216.34"] :=
  connect_host_resolution "GET http://example.com/ HTTP/1.1".toList "example.com".toList
    [] 80 DNS.new 3 7 (fun _ => some ["93.184.216.34"]) "93.184.216.34" []
    (by decide) (by decide) (by decide) (by decide) (by decide)
    (Or.inl ⟨rfl, rfl⟩) rfl rfl

/-- A CONNECT-style request whose request-line target ends in `:443` but
whose `Host` header carries no port. -/
def c4Request : RStr :=
  "CONNECT example.com:443 HTTP/1.1\r\nHost: example.com\r\n\r\n".toList

/-- C4 counterexample: the request-line target token is `example.com:443`
(which ends in `:443`), yet the session's `is_https` comes out `false`,
because the code tests the *Host header value* (`example.com`), not the
request-line target. -/
theorem tunnel_detection_counterexample :
    specRequestTarget c4Request = "example.com:443".toList ∧
    rEndsWith ":443".toList (specRequestTarget c4Request) = true ∧
    (Session.connect ⟨[.chunk c4Request], (fun _ => some ["93.184.216.34"]), 7, none, none⟩
        DNS.new (Session.new 3)).session.is_https = false := by
  refine ⟨by decide, by decide, by decide⟩

/-- C4 amended: (1) `is_https` is determined by the last `Host` header
value ending in `":443"` (not by the request-line target); (2) on a
confirmed upstream connect with `is_https` set, the session writes exactly
`"HTTP/1.1 200 Connection established\r\n\r\n"` to the downstream socket,
nothing to the upstream socket, and moves to state `Piping`; (3) with
`is_https` unset, it writes nothing to the downstream socket, forwards the
buffered header bytes verbatim to the upstream socket, and moves to state
`Piping`. -/
theorem tunnel_detection_amended :
    (∀ (rl hst sfx : RStr) (port : Nat) (dns : DNS) (fd newFd : Nat)
        (resolve : RStr → Option (List IpAddr)) (ip : IpAddr) (ips : List IpAddr),
        '\n' ∉ rl → valueOK (hst ++ sfx) → ' ' ∉ hst ++ sfx →
        rHasPre "http".toList (hst ++ sfx) = false → ':' ∉ hst →
        ((sfx = [] ∧ port = 80) ∨
          (∃ ds, sfx = ':' :: ds ∧ ':' ∉ ds ∧ parsePort ds = some port)) →
        resolve hst = some (ip :: ips) → alookup hst dns.cache = none →
        (Session.connect ⟨[.chunk (mkRequest rl (hst ++ sfx))], resolve, newFd, none, none⟩
            dns (Session.new fd)).session.is_https =
          rEndsWith ":443".toList (hst ++ sfx)) ∧
    (∀ (s : Session) (wenv : WriteEnv) (tok : Nat),
        s.state = .Head → tok = s.up_sock_id →
        wenv.takeError1 = .ok none → wenv.takeError2 = .ok none →
        wenv.peerAddrErr = none → wenv.downWriteErr = none →
        s.is_https = true →
        Session.handle_write wenv s tok =
          (.ok (), { s with state := .Piping }, tunnelResponse, [])) ∧
    (∀ (s : Session) (wenv : WriteEnv) (tok : Nat),
        s.state = .Head → tok = s.up_sock_id →
        wenv.takeError1 = .ok none → wenv.takeError2 = .ok none →
        wenv.peerAddrErr = none → wenv.downWriteErr = none →
        s.is_https = false → s.hasUpSock = true →
        Session.handle_write wenv s tok =
          (.ok (), { s with state := .Piping }, [], s.connect_header_buf)) := by
  refine ⟨?_, ?_, ?_⟩
  · intro rl hst sfx port dns fd newFd resolve ip ips hrl hv hsp hhttp hcolh hsfx hres hcache
    rw [connect_success_eq rl hst sfx port dns fd newFd resolve ip ips
        hrl hv hsp hhttp hcolh hsfx hres hcache]
  · intro s wenv tok hstate htok h1 h2 h3 h4 hhttps
    cases hup : s.hasUpSock <;>
      simp [Session.handle_write, h1, h2, h3, h4, hup,
        Session.handle_up_sock_connected, hstate, htok, hhttps]
  · intro s wenv tok hstate htok h1 h2 h3 h4 hhttps hup
    simp [Session.handle_write, h1, h2, h3, h4, hup,
      Session.handle_up_sock_connected, hstate, htok, hhttps]

/-- Witness for `tunnel_detection_amended` at concrete inputs: a
`Host: example.com:443` request sets `is_https`; a tunnel session emits the
fixed 200 reply; a plain session forwards its buffer. -/
theorem tunnel_detection_amended_witness :
    (Session.connect ⟨[.chunk (mkRequest "CONNECT example.com:443 HTTP/1.1".toList
        ("example.com".toList ++ ':' :: "443".toList))],
        (fun _ => some ["93.184.216.34"]), 7, none, none⟩
        DNS.new (Session.new 3)).session.is_https =
      rEndsWith ":443".toList ("example.com".toList ++ ':' :: "443".toList) ∧
    Session.handle_write ⟨.ok none, .ok none, none, none⟩
        ⟨.Head, 3, 7, true, "buffered".toList, true, []⟩ 7 =
      (.ok (), { (⟨.Head, 3, 7, true, "buffered".toList, true, []⟩ : Session) with
        state := .Piping }, tunnelResponse, []) ∧
    Session.handle_write ⟨.ok none, .ok none, none, none⟩
        ⟨.Head, 3, 7, true, "buffered".toList, false, []⟩ 7 =
      (.ok (), { (⟨.Head, 3, 7, true, "buffered".toList, false, []⟩ : Session) with
        state := .Piping }, [], (⟨.Head, 3, 7, true, "buffered".toList, false, []⟩ :
          Session).connect_header_buf) := by
  refine ⟨?_, ?_, ?_⟩
  · exact tunnel_detection_amended.1 "CONNECT example.com:443 HTTP/1.1".toList
      "example.com".toList (':' :: "443".toList) 443 DNS.new 3 7
      (fun _ => some ["93.184.216.34"]) "93.184.216.34" []
      (by decide) (by decide) (by decide) (by decide) (by decide)
      (Or.inr ⟨"443".toList, rfl, by decide, by decide⟩) rfl rfl
  · exact tunnel_detection_amended.2.1 ⟨.Head, 3, 7, true, "buffered".toList, true, []⟩
      ⟨.ok none, .ok none, none, none⟩ 7 rfl rfl rfl rfl rfl rfl rfl
  · exact tunnel_detection_amended.2.2 ⟨.Head, 3, 7, true, "buffered".toList, false, []⟩
      ⟨.ok none, .ok none, none, none⟩ 7 rfl rfl rfl rfl rfl rfl rfl rfl

/- ## Claim C6: identities of a Negotiating session -/

theorem list_get_append_self {α : Type} (l : List α) (a : α) :
    (l ++ [a]).get? l.length = some a := by
  induction l with
  | nil => rfl
  | cons c cs ih => simpa using ih

theorem list_get_set_self {α : Type} (l : List α) (i : Nat) (a b : α)
    (h : l.get? i = some a) : (l.set i b).get? i = some b := by
  induction l generalizing i with
  | nil => simp at h
  | cons c cs ih =>
      cases i with
      | zero => rfl
      | succ j => exact ih j h

/-- Request used in the C6 run. -/
def c6Request : RStr :=
  "GET http://example.com/ HTTP/1.1\r\nHost: example.com\r\n\r\n".toList

/-- Connect environment of the C6 run: the whole request arrives at once,
the resolver succeeds, the upstream socket gets fd 7 and registration
succeeds. -/
def c6CEnv : ConnectEnv :=
  ⟨[.chunk c6Request], (fun _ => some ["93.184.216.34"]), 7, none, none⟩

/-- Event environment of the C6 run. -/
def c6EEnv : EventEnv :=
  ⟨c6CEnv, ⟨.ok none, .ok none, none, none⟩, ⟨[], false, 0, []⟩, ⟨[], false, 0, []⟩⟩

/-- The world after accepting client fd 3 and dispatching one readable
event on it that runs `connect` to completion. -/
def c6World : World :=
  dispatchEvent c6EEnv (accept ⟨3, none⟩ World.init).2 ⟨3, true, false, false, false, false⟩

/-- C6 counterexample: after the readable event that initiates the upstream
connection, the session is reachable from the registry under *two*
identities (3 and 7) while its state is still `Head` (Negotiating): the
second registry insert happens at connect time, not at the later
Relaying transition. -/
theorem negotiating_two_identities_counterexample :
    alookup 3 c6World.registry = some 0 ∧
    alookup 7 c6World.registry = some 0 ∧
    (c6World.sessions.get? 0).map Session.state = some .Head ∧
    (3 : Nat) ≠ 7 := by
  refine ⟨by decide, by decide, by decide, by decide⟩

/-- C6 amended: (1) immediately after `accept`, the new session (state
`Negotiating`, no upstream socket) is reachable from the registry by
exactly one identity — its downstream fd; (2) a readable event on that
identity whose `connect` run succeeds inserts the session under the new
upstream identity *while the state is still `Negotiating`*, making it
reachable by exactly the two identities (downstream fd and upstream fd)
with the upstream socket in flight; only the later writable event moves it
to `Relaying`. -/
theorem negotiating_identities_amended :
    (∀ (env : AcceptEnv) (w : World) (tok : Nat),
        env.registerErr = none →
        (∀ t, alookup t w.registry ≠ some w.sessions.length) →
        ((alookup tok (accept env w).2.registry = some w.sessions.length ↔ tok = env.fd) ∧
         (accept env w).2.sessions.get? w.sessions.length = some (Session.new env.fd) ∧
         (Session.new env.fd).state = .Head ∧ (Session.new env.fd).hasUpSock = false)) ∧
    (∀ (rl hst sfx : RStr) (port : Nat) (dsp usp : SpliceState) (w : World)
        (idx fd newFd : Nat) (resolve : RStr → Option (List IpAddr))
        (ip : IpAddr) (ips : List IpAddr) (tok : Nat),
        '\n' ∉ rl → valueOK (hst ++ sfx) → ' ' ∉ hst ++ sfx →
        rHasPre "http".toList (hst ++ sfx) = false → ':' ∉ hst →
        ((sfx = [] ∧ port = 80) ∨
          (∃ ds, sfx = ':' :: ds ∧ ':' ∉ ds ∧ parsePort ds = some port)) →
        resolve hst = some (ip :: ips) → alookup hst w.dns.cache = none →
        w.sessions.get? idx = some (Session.new fd) →
        (∀ t, alookup t w.registry = some idx ↔ t = fd) →
        ((alookup tok (handleRead ⟨[.chunk (mkRequest rl (hst ++ sfx))], resolve, newFd,
              none, none⟩ dsp usp w fd).2.1.registry = some idx ↔
            (tok = fd ∨ tok = newFd)) ∧
         ((handleRead ⟨[.chunk (mkRequest rl (hst ++ sfx))], resolve, newFd,
              none, none⟩ dsp usp w fd).2.1.sessions.get? idx).map Session.state =
           some .Head ∧
         ((handleRead ⟨[.chunk (mkRequest rl (hst ++ sfx))], resolve, newFd,
              none, none⟩ dsp usp w fd).2.1.sessions.get? idx).map Session.hasUpSock =
           some true)) := by
  constructor
  · intro env w tok hreg hidx
    refine ⟨?_, ?_, rfl, rfl⟩
    · simp only [accept, hreg]
      by_cases htk : tok = env.fd
      · subst htk
        simp [alookup_ainsert_self]
      · rw [alookup_ainsert_ne _ _ _ _ htk]
        exact ⟨fun hl => absurd hl (hidx tok), fun hl => absurd hl htk⟩
    · simp only [accept, hreg]
      exact list_get_append_self w.sessions (Session.new env.fd)
  · intro rl hst sfx port dsp usp w idx fd newFd resolve ip ips tok
    intro hrl hv hsp hhttp hcolh hsfx hres hcache hget hiff
    have hdown : alookup fd w.registry = some idx := (hiff fd).mpr rfl
    have hconn := connect_success_eq rl hst sfx port w.dns fd newFd resolve ip ips
      hrl hv hsp hhttp hcolh hsfx hres hcache
    simp only [Session.new] at hget hconn
    simp only [handleRead, Session.new, hdown, hget, hconn]
    refine ⟨?_, ?_, ?_⟩
    · by_cases htk : tok = newFd
      · subst htk
        simp [alookup_ainsert_self]
      · rw [alookup_ainsert_ne _ _ _ _ htk]
        constructor
        · intro hl
          exact Or.inl ((hiff tok).mp hl)
        · rintro (hl | hl)
          · exact (hiff tok).mpr hl
          · exact absurd hl htk
    · rw [list_get_set_self w.sessions idx _ _ hget]
      rfl
    · rw [list_get_set_self w.sessions idx _ _ hget]
      rfl

/-- Witness for `negotiating_identities_amended` at fd 3 / upstream fd 7. -/
theorem negotiating_identities_amended_witness :
    ((alookup 3 (accept ⟨3, none⟩ World.init).2.registry = some World.init.sessions.length ↔
        (3 : Nat) = 3) ∧
     (accept ⟨3, none⟩ World.init).2.sessions.get? World.init.sessions.length =
        some (Session.new 3) ∧
     (Session.new 3).state = .Head ∧ (Session.new 3).hasUpSock = false) ∧
    ((alookup 7 (handleRead ⟨[.chunk (mkRequest "GET http://example.com/ HTTP/1.1".toList
          ("example.com".toList ++ []))], (fun _ => some ["93.184.216.34"]), 7, none, none⟩
          ⟨[], false, 0, []⟩ ⟨[], false, 0, []⟩
          (accept ⟨3, none⟩ World.init).2 3).2.1.registry = some 0 ↔
        ((7 : Nat) = 3 ∨ (7 : Nat) = 7)) ∧
     ((handleRead ⟨[.chunk (mkRequest "GET http://example.com/ HTTP/1.1".toList
          ("example.com".toList ++ []))], (fun _ => some ["93.184.216.34"]), 7, none, none⟩
          ⟨[], false, 0, []⟩ ⟨[], false, 0, []⟩
          (accept ⟨3, none⟩ World.init).2 3).2.1.sessions.get? 0).map Session.state =
        some .Head ∧
     ((handleRead ⟨[.chunk (mkRequest "GET http://example.com/ HTTP/1.1".toList
          ("example.com".toList ++ []))], (fun _ => some ["93.184.216.34"]), 7, none, none⟩
          ⟨[], false, 0, []⟩ ⟨[], false, 0, []⟩
          (accept ⟨3, none⟩ World.init).2 3).2.1.sessions.get? 0).map Session.hasUpSock =
        some true) := by
  constructor
  · exact negotiating_identities_amended.1 ⟨3, none⟩ World.init 3 rfl
      (fun t => by simp [World.init, alookup])
  · exact negotiating_identities_amended.2 "GET http://example.com/ HTTP/1.1".toList
      "example.com".toList [] 80 ⟨[], false, 0, []⟩ ⟨[], false, 0, []⟩
      (accept ⟨3, none⟩ World.init).2 0 3 7 (fun _ => some ["93.184.216.34"])
      "93.184.216.34" [] 7
      (by decide) (by decide) (by decide) (by decide) (by decide)
      (Or.inl ⟨rfl, rfl⟩) rfl (by decide) (by decide)
      (fun t => by
        by_cases h : t = 3
        · subst h
          simp [accept, World.init, ainsert, aremove, alookup]
        · have h' : ¬((3 : Nat) = t) := fun hh => h hh.symm
          simp [accept, World.init, ainsert, aremove, alookup, h, h'])

/- ## Claim C7: malformed header block after a complete request line -/

/-- A request whose bytes after the request-line terminator are not a
well-formed header block (`"Bad Header"` has a space inside the field name
and no colon). -/
def c7Request : RStr := "GET / HTTP/1.1\r\nBad Header\r\n\r\n".toList

/-- Connect environment of the C7 run: the malformed request arrives, then
reads would-block. -/
def c7CEnv : ConnectEnv := ⟨[.chunk c7Request], (fun _ => none), 7, none, none⟩

/-- Event environment of the C7 run. -/
def c7EEnv : EventEnv :=
  ⟨c7CEnv, ⟨.ok none, .ok none, none, none⟩, ⟨[], false, 0, []⟩, ⟨[], false, 0, []⟩⟩

/-- The world after accepting client fd 3 and dispatching one readable
event that delivers the malformed request. -/
def c7World : World :=
  dispatchEvent c7EEnv (accept ⟨3, none⟩ World.init).2 ⟨3, true, false, false, false, false⟩

/-- C7, behaviour of the code at the failing input: the header block after
the request-line terminator is malformed (the parser rejects it), yet
`parse_header_line` surfaces this as the would-block error — the parse
error is only logged — so the driver treats the event as "no progress": the
session is *not* closed and stays registered in state `Head`
(Negotiating), contradicting the documented ProtocolError-closes-session
behaviour. -/
theorem malformed_header_leaves_session_open :
    parse_headers ("Bad Header\r\n\r\n".toList) = .error () ∧
    (parse_header_line [.chunk c7Request] []).1 = .error wbErr ∧
    alookup 3 c7World.registry = some 0 ∧
    (c7World.sessions.get? 0).map Session.state = some .Head := by
  refine ⟨rfl, rfl, by decide, by decide⟩

/- ## Claim C9: would-block never closes a session -/

theorem list_get_set_ne {α : Type} (l : List α) (i j : Nat) (b : α) (h : j ≠ i) :
    (l.set i b).get? j = l.get? j := by
  induction l generalizing i j with
  | nil => simp
  | cons c cs ih =>
      cases i with
      | zero =>
          cases j with
          | zero => exact absurd rfl h
          | succ jj => rfl
      | succ ii =>
          cases j with
          | zero => rfl
          | succ jj => exact ih ii jj (fun hh => h (by rw [hh]))

/-- `Session::connect` never changes the state-machine state. -/
theorem connect_session_state (env : ConnectEnv) (dns : DNS) (s : Session) :
    (Session.connect env dns s).session.state = s.state := by
  unfold Session.connect
  dsimp only
  repeat' split
  all_goals rfl

/-- `Session::connect` registers an upstream descriptor only when it
returns success. -/
theorem connect_registeredFd (env : ConnectEnv) (dns : DNS) (s : Session) :
    (Session.connect env dns s).registeredFd = none ∨
    (Session.connect env dns s).result = .ok env.newFd := by
  unfold Session.connect
  dsimp only
  repeat' split
  all_goals first
    | exact Or.inl rfl
    | exact Or.inr rfl

/-- An erroring `Session::handle_write` leaves the session untouched
(both the probe-failure path and the tunnel-reply write failure return the
session unchanged). -/
theorem handle_write_error_session (wenv : WriteEnv) (s : Session) (tok : Nat) :
    ∀ e, (Session.handle_write wenv s tok).1 = .error e →
      (Session.handle_write wenv s tok).2.1 = s := by
  unfold Session.handle_write Session.handle_up_sock_connected
  dsimp only
  repeat' split
  all_goals intro e h
  all_goals first
    | rfl
    | simp_all

/-- `handleRead` under a would-block outcome of the underlying operation
(`connect` in `Head`, `pipe` in `Piping`): the call returns `Ok`, and the
registry, the reactor registrations, and every session's state-machine
state are unchanged. -/
theorem handleRead_wb (cenv : ConnectEnv) (dsp usp : SpliceState) (w : World) (tok : Nat)
    (h : ∀ idx s, alookup tok w.registry = some idx → w.sessions.get? idx = some s →
        (s.state = .Head →
          ∃ e, (Session.connect cenv w.dns s).result = .error e ∧ e.kind = .wouldBlock) ∧
        (s.state = .Piping →
          ∃ e, (Session.pipe dsp usp s tok).1 = .error e ∧ e.kind = .wouldBlock)) :
    (handleRead cenv dsp usp w tok).1 = .ok () ∧
    (handleRead cenv dsp usp w tok).2.1.registry = w.registry ∧
    (handleRead cenv dsp usp w tok).2.1.reactor = w.reactor ∧
    ∀ j, ((handleRead cenv dsp usp w tok).2.1.sessions.get? j).map Session.state =
      (w.sessions.get? j).map Session.state := by
  cases hl : alookup tok w.registry with
  | none => simp [handleRead, hl]
  | some idx =>
    cases hg : w.sessions.get? idx with
    | none =>
        have hg2 := hg
        rw [List.get?_eq_getElem?] at hg2
        simp [handleRead, hl, hg2]
    | some s =>
      have hg2 := hg
      rw [List.get?_eq_getElem?] at hg2
      cases hst : s.state with
      | Piping =>
          obtain ⟨e, he, hek⟩ := (h idx s hl hg).2 hst
          rcases hp : Session.pipe dsp usp s tok with ⟨r, dsp1, usp1⟩
          rw [hp] at he
          simp only at he
          subst he
          simp [handleRead, hl, hg2, hst, hp, hek]
      | Head =>
          obtain ⟨e, he, hek⟩ := (h idx s hl hg).1 hst
          have hstate := connect_session_state cenv w.dns s
          rcases connect_registeredFd cenv w.dns s with hregf | hregf
          · simp only [handleRead, hl, hg, hst, hregf, he, hek, if_true]
            refine ⟨by trivial, by trivial, by trivial, ?_⟩
            intro j
            by_cases hj : j = idx
            · subst hj
              rw [list_get_set_self w.sessions j _ _ hg, hg]
              simp [hstate, hst]
            · rw [list_get_set_ne w.sessions idx j _ hj]
          · rw [hregf] at he
            simp at he

/-- `handleWrite` under a would-block outcome of the session's write
handler: the world is unchanged and the call either succeeds (no session
found) or propagates the would-block error. -/
theorem handleWrite_wb (wenv : WriteEnv) (w : World) (tok : Nat)
    (h : ∀ idx s, alookup tok w.registry = some idx → w.sessions.get? idx = some s →
        ∃ e, (Session.handle_write wenv s tok).1 = .error e ∧ e.kind = .wouldBlock) :
    (handleWrite wenv w tok).2.1 = w ∧
    ((handleWrite wenv w tok).1 = .ok () ∨
      ∃ e, (handleWrite wenv w tok).1 = .error e ∧ e.kind = .wouldBlock) := by
  cases hl : alookup tok w.registry with
  | none => simp [handleWrite, hl]
  | some idx =>
    cases hg : w.sessions.get? idx with
    | none =>
        have hg2 := hg
        rw [List.get?_eq_getElem?] at hg2
        simp [handleWrite, hl, hg2]
    | some s =>
      have hg2 := hg
      rw [List.get?_eq_getElem?] at hg2
      obtain ⟨e, he, hek⟩ := h idx s hl hg
      have hs1 := handle_write_error_session wenv s tok e he
      rcases hh : Session.handle_write wenv s tok with ⟨r, s1, dOut, uOut⟩
      rw [hh] at he hs1
      simp only at he hs1
      subst he
      constructor
      · simp only [handleWrite, hl, hg, hh, hs1]
        rw [list_set_get_eq w.sessions idx s hg]
      · right
        exact ⟨e, by simp [handleWrite, hl, hg2, hh], hek⟩

/-- C9: for an event carrying no closure flags, a would-block outcome from
the read-side operation (`connect`/`pipe`) and from the write handler never
closes the session: dispatching the event leaves the registry, the reactor
registrations, and every session's state-machine state exactly as they
were, and control returns to the event loop. -/
theorem wouldblock_never_closes (env : EventEnv) (w : World) (evt : Evt)
    (hrc : evt.readClosed = false) (hwc : evt.writeClosed = false)
    (hie : evt.isError = false)
    (hr : evt.readable = true →
      ∀ idx s, alookup evt.tok w.registry = some idx → w.sessions.get? idx = some s →
        (s.state = .Head →
          ∃ e, (Session.connect env.cenv w.dns s).result = .error e ∧
            e.kind = .wouldBlock) ∧
        (s.state = .Piping →
          ∃ e, (Session.pipe env.dsp env.usp s evt.tok).1 = .error e ∧
            e.kind = .wouldBlock))
    (hw : evt.writable = true →
      ∀ idx s, alookup evt.tok (readPhase env w evt).registry = some idx →
        (readPhase env w evt).sessions.get? idx = some s →
        ∃ e, (Session.handle_write env.wenv s evt.tok).1 = .error e ∧
          e.kind = .wouldBlock) :
    (dispatchEvent env w evt).registry = w.registry ∧
    (dispatchEvent env w evt).reactor = w.reactor ∧
    ∀ j, ((dispatchEvent env w evt).sessions.get? j).map Session.state =
      (w.sessions.get? j).map Session.state := by
  have hrp : (readPhase env w evt).registry = w.registry ∧
      (readPhase env w evt).reactor = w.reactor ∧
      ∀ j, ((readPhase env w evt).sessions.get? j).map Session.state =
        (w.sessions.get? j).map Session.state := by
    cases hread : evt.readable with
    | false => simp [readPhase, hread]
    | true =>
        obtain ⟨hok, h1, h2, h3⟩ :=
          handleRead_wb env.cenv env.dsp env.usp w evt.tok (hr hread)
        have hrw : readPhase env w evt =
            (handleRead env.cenv env.dsp env.usp w evt.tok).2.1 := by
          simp only [readPhase, hread, if_true]
          rcases hh : handleRead env.cenv env.dsp env.usp w evt.tok with ⟨r, w1, d, u⟩
          rw [hh] at hok
          simp only at hok
          subst hok
          rfl
        rw [hrw]
        exact ⟨h1, h2, h3⟩
  have hwp : writePhase env (readPhase env w evt) evt = readPhase env w evt := by
    cases hwrit : evt.writable with
    | false => simp [writePhase, hwrit]
    | true =>
        obtain ⟨hW, hres⟩ := handleWrite_wb env.wenv (readPhase env w evt) evt.tok (hw hwrit)
        simp only [writePhase, hwrit, if_true]
        rcases hh : handleWrite env.wenv (readPhase env w evt) evt.tok with ⟨r, w1, dOut, uOut⟩
        rw [hh] at hW hres
        simp only at hW hres
        subst hW
        rcases hres with hres | ⟨e, hres, hek⟩
        · subst hres
          rfl
        · subst hres
          simp [hek]
  have hcp : dispatchEvent env w evt = readPhase env w evt := by
    rw [dispatchEvent, hwp]
    simp [closePhase, hrc, hwc, hie]
  rw [hcp]
  exact hrp

/-- Witness for `wouldblock_never_closes`: one `Head` session whose reads
immediately would-block and whose upstream probe reports "not yet
connected" (mapped to would-block); both sub-events fire and the session
survives untouched. -/
theorem wouldblock_never_closes_witness :
    (dispatchEvent
        ⟨⟨[], (fun _ => none), 7, none, none⟩,
         ⟨.error ⟨.notConnected, ""⟩, .ok none, none, none⟩,
         ⟨[], false, 0, []⟩, ⟨[], false, 0, []⟩⟩
        ⟨[(3, 0)], [⟨.Head, 3, 7, true, [], false, []⟩], [3, 7], DNS.new⟩
        ⟨3, true, true, false, false, false⟩).registry = [(3, 0)] ∧
    (dispatchEvent
        ⟨⟨[], (fun _ => none), 7, none, none⟩,
         ⟨.error ⟨.notConnected, ""⟩, .ok none, none, none⟩,
         ⟨[], false, 0, []⟩, ⟨[], false, 0, []⟩⟩
        ⟨[(3, 0)], [⟨.Head, 3, 7, true, [], false, []⟩], [3, 7], DNS.new⟩
        ⟨3, true, true, false, false, false⟩).reactor = [3, 7] ∧
    ∀ j, ((dispatchEvent
        ⟨⟨[], (fun _ => none), 7, none, none⟩,
         ⟨.error ⟨.notConnected, ""⟩, .ok none, none, none⟩,
         ⟨[], false, 0, []⟩, ⟨[], false, 0, []⟩⟩
        ⟨[(3, 0)], [⟨.Head, 3, 7, true, [], false, []⟩], [3, 7], DNS.new⟩
        ⟨3, true, true, false, false, false⟩).sessions.get? j).map Session.state =
      (([⟨.Head, 3, 7, true, [], false, []⟩] : List Session).get? j).map Session.state := by
  have h := wouldblock_never_closes
    ⟨⟨[], (fun _ => none), 7, none, none⟩,
     ⟨.error ⟨.notConnected, ""⟩, .ok none, none, none⟩,
     ⟨[], false, 0, []⟩, ⟨[], false, 0, []⟩⟩
    ⟨[(3, 0)], [⟨.Head, 3, 7, true, [], false, []⟩], [3, 7], DNS.new⟩
    ⟨3, true, true, false, false, false⟩
    rfl rfl rfl
    (fun _ idx s h1 h2 => by
      simp [alookup] at h1
      have hidx : idx = 0 := by omega
      subst hidx
      have hs : s = ⟨.Head, 3, 7, true, [], false, []⟩ := by
        simpa using h2.symm
      subst hs
      exact ⟨fun _ => ⟨wbErr, rfl, rfl⟩, fun hpip => nomatch hpip⟩)
    (fun _ idx s h1 h2 => by
      have hreg : (readPhase
          ⟨⟨[], (fun _ => none), 7, none, none⟩,
           ⟨.error ⟨.notConnected, ""⟩, .ok none, none, none⟩,
           ⟨[], false, 0, []⟩, ⟨[], false, 0, []⟩⟩
          ⟨[(3, 0)], [⟨.Head, 3, 7, true, [], false, []⟩], [3, 7], DNS.new⟩
          ⟨3, true, true, false, false, false⟩).registry = [(3, 0)] := by decide
      have hses : (readPhase
          ⟨⟨[], (fun _ => none), 7, none, none⟩,
           ⟨.error ⟨.notConnected, ""⟩, .ok none, none, none⟩,
           ⟨[], false, 0, []⟩, ⟨[], false, 0, []⟩⟩
          ⟨[(3, 0)], [⟨.Head, 3, 7, true, [], false, []⟩], [3, 7], DNS.new⟩
          ⟨3, true, true, false, false, false⟩).sessions =
        [⟨.Head, 3, 7, true, [], false, []⟩] := by decide
      rw [hreg] at h1
      rw [hses] at h2
      simp [alookup] at h1
      have hidx : idx = 0 := by omega
      subst hidx
      have hs : s = ⟨.Head, 3, 7, true, [], false, []⟩ := by
        simpa using h2.symm
      subst hs
      exact ⟨⟨.wouldBlock, "not connected"⟩, rfl, rfl⟩)
  exact h
